import Mathlib

/-!
Verification development for the GC-MS report-parsing and name-normalization
pipeline (`app.py`).  The Python source is shallowly embedded: strings are
`List Char` / `String`, pandas cells are an explicit `Cell` type with `nan`
for missing values, numeric coercion returns `Option Rat`, and the
per-file parser returns `Option (List Row)` (with `none` for every
caught-exception / skip path).  All ASCII behaviour of the relevant Python
string operations is modelled exactly; Unicode-only behaviour (non-ASCII
whitespace, digits, case) is outside the inputs exercised here.
-/

namespace GCMS

/-! ### Character and string primitives (Python semantics, ASCII range) -/

def quoteChar : Char := Char.ofNat 34

def apostChar : Char := Char.ofNat 39

def openParen : Char := '('

def closeParen : Char := ')'

/-- The characters `str.strip()` and the regex class `\s` treat as whitespace
(ASCII range). -/
def isSpaceChar (c : Char) : Bool :=
  c == ' ' || c == '\t' || c == '\n' || c == '\r' || c == Char.ofNat 11 || c == Char.ofNat 12

/-- The separator class `[\s\-\.]` used by the normalizer's regexes. -/
def isSepChar (c : Char) : Bool :=
  isSpaceChar c || c == '-' || c == '.'

/-- Strip all leading and trailing characters satisfying `p`
(the behaviour of Python `str.strip(chars)`). -/
def stripWhile (p : Char → Bool) (cs : List Char) : List Char :=
  ((cs.dropWhile p).reverse.dropWhile p).reverse

/-- Python `str.strip()` (whitespace). -/
def pyStrip (cs : List Char) : List Char := stripWhile isSpaceChar cs

/-- Python `str.strip(c)` for a single character `c`. -/
def stripChar (ch : Char) (cs : List Char) : List Char :=
  stripWhile (fun c => c == ch) cs

def pyStripStr (s : String) : String := String.mk (pyStrip s.data)

/-- Python `s.replace(quote, '')`: remove every double-quote character. -/
def removeQuotes (cs : List Char) : List Char :=
  cs.filter (fun c => !(c == quoteChar))

/-- Python `col.strip(quote)` on a `String`. -/
def stripQuotesStr (s : String) : String := String.mk (stripChar quoteChar s.data)

/-- Python `str.isdigit()` (ASCII digits). -/
def pyIsDigit (cs : List Char) : Bool :=
  !cs.isEmpty && cs.all Char.isDigit

/-- Python `cs.startswith(pat)`, written `leadsWith pat cs`. -/
def leadsWith : List Char → List Char → Bool
  | [], _ => true
  | _ :: _, [] => false
  | a :: pat, b :: cs => a == b && leadsWith pat cs

/-- Split on a separator character, Python `str.split(sep)` semantics
(`"".split(c) == [""]`, empty pieces are kept). -/
def splitOnCharAux (sep : Char) : List Char → List Char → List (List Char)
  | [], acc => [acc.reverse]
  | c :: rest, acc =>
    if c == sep then acc.reverse :: splitOnCharAux sep rest []
    else splitOnCharAux sep rest (c :: acc)

def splitOnChar (sep : Char) (cs : List Char) : List (List Char) :=
  splitOnCharAux sep cs []

def digitsToNat (cs : List Char) : Nat :=
  cs.foldl (fun a c => a * 10 + (c.toNat - 48)) 0

/-- Models `pd.to_numeric(·, errors='coerce')` on a decimal string: optional sign,
digits with at most one decimal point; anything else is missing (`none`). -/
def parseNum (s : String) : Option Rat :=
  let cs := pyStrip s.data
  let signNeg : Bool := match cs with
    | c :: _ => c == '-'
    | [] => false
  let cs1 : List Char := match cs with
    | c :: t => if c == '-' || c == '+' then t else c :: t
    | [] => []
  let ip := cs1.takeWhile Char.isDigit
  let r1 := cs1.drop ip.length
  let build : Option (Nat × Nat) :=
    match r1 with
    | [] => if ip.isEmpty then none else some (digitsToNat ip, 1)
    | c :: r2 =>
      if c == '.' then
        let fd := r2.takeWhile Char.isDigit
        if (r2.drop fd.length).isEmpty then
          if ip.isEmpty && fd.isEmpty then none
          else
            let den := 10 ^ fd.length
            some (digitsToNat ip * den + digitsToNat fd, den)
        else none
      else none
  match build with
  | some (n, den) =>
    some (if signNeg then mkRat (-(Int.ofNat n)) den else mkRat (Int.ofNat n) den)
  | none => none

/-- Models `os.path.splitext(name)[0]`: the file name without its extension
(leading dots of the name do not start an extension). -/
def splitextBase (name : String) : String :=
  let cs := name.data
  let lead := (cs.takeWhile (fun c => c == '.')).length
  let rest := cs.drop lead
  let rev := rest.reverse
  let pre := rev.takeWhile (fun c => !(c == '.'))
  if pre.length = rev.length then name
  else String.mk (cs.take lead ++ (rev.drop (pre.length + 1)).reverse)

/-! ### The name normalizer `clean_compound_name` (app.py lines 100-136)

Each regex substitution of the source is an anchored pattern over disjoint
character classes, so it is implemented directly by greedy longest-run
scanning, which coincides with the regex semantics. -/

/-- Models `re.sub(r'^\d+[\s\-\.]+', '', cs)`: drop a leading digit run followed by a
nonempty separator run. -/
def stripNumLead (cs : List Char) : List Char :=
  let ds := cs.takeWhile Char.isDigit
  if ds.isEmpty then cs
  else
    let rest := cs.drop ds.length
    let seps := rest.takeWhile isSepChar
    if seps.isEmpty then cs else rest.drop seps.length

def isStereoChar (c : Char) : Bool :=
  c == '+' || c == '-' || c == 'R' || c == 'S' || c == 'E' || c == 'Z'

/-- Models `re.sub(r'^\([+\-RSEZ]+\)[\s\-\.]*', '', cs)`. -/
def stripStereoSimple (cs : List Char) : List Char :=
  match cs with
  | [] => []
  | c :: rest =>
    if c == openParen then
      let run := rest.takeWhile isStereoChar
      if run.isEmpty then cs
      else
        match rest.drop run.length with
        | c2 :: tail => if c2 == closeParen then tail.dropWhile isSepChar else cs
        | [] => cs
    else cs

def isRSEZ (c : Char) : Bool :=
  c == 'R' || c == 'S' || c == 'E' || c == 'Z'

def isLocChar (c : Char) : Bool :=
  c.isDigit || c == ',' || isRSEZ c

/-- Models `re.sub(r'^\(\d*[RSEZ][\d,RSEZ]*\)[\s\-\.]*', '', cs)`. -/
def stripStereoComplex (cs : List Char) : List Char :=
  match cs with
  | [] => []
  | c :: rest =>
    if c == openParen then
      let ds := rest.takeWhile Char.isDigit
      match rest.drop ds.length with
      | c2 :: r3 =>
        if isRSEZ c2 then
          let run := r3.takeWhile isLocChar
          match r3.drop run.length with
          | c3 :: tail => if c3 == closeParen then tail.dropWhile isSepChar else cs
          | [] => cs
        else cs
      | [] => cs
    else cs

/-- Models `re.sub(r'\s*\(\d+\)\s*$', '', cs)`: since the pattern is anchored at the
end, the (unique, leftmost) match is the longest matching suffix; scan the
reversed string. -/
def stripTrailIndex (cs : List Char) : List Char :=
  match cs.reverse.dropWhile isSpaceChar with
  | [] => cs
  | c :: r2 =>
    if c == closeParen then
      let ds := r2.takeWhile Char.isDigit
      if ds.isEmpty then cs
      else
        match r2.drop ds.length with
        | c2 :: r4 => if c2 == openParen then (r4.dropWhile isSpaceChar).reverse else cs
        | [] => cs
    else cs

/-- Models `re.sub(r'\s+', ' ', cs)`: every maximal whitespace run becomes one space.
The flag records whether the previous character was whitespace. -/
def collapseWsAux : Bool → List Char → List Char
  | _, [] => []
  | inWs, c :: rest =>
    if isSpaceChar c then
      if inWs then collapseWsAux true rest
      else ' ' :: collapseWsAux true rest
    else c :: collapseWsAux false rest

def collapseWs (cs : List Char) : List Char := collapseWsAux false cs

/-- Python `str.isupper()`: at least one cased character and no lowercase one
(ASCII range). -/
def pyIsUpper (cs : List Char) : Bool :=
  cs.any (fun c => c.isUpper || c.isLower) && cs.all (fun c => !c.isLower)

/-- Python `str.title()` (ASCII range): a letter after a non-letter is
uppercased, a letter after a letter is lowercased. -/
def pyTitleAux : Bool → List Char → List Char
  | _, [] => []
  | prevAlpha, c :: rest =>
    if c.isAlpha then
      (if prevAlpha then c.toLower else c.toUpper) :: pyTitleAux true rest
    else c :: pyTitleAux false rest

def pyTitle (cs : List Char) : List Char := pyTitleAux false cs

/-- The cleaning pipeline of `clean_compound_name` before the final length
gate (app.py lines 109-130), step for step in source order. -/
def cleanCore (cs : List Char) : List Char :=
  let c1 := stripChar apostChar (stripChar quoteChar (pyStrip cs))
  let c2 := stripNumLead c1
  let c3 := stripStereoSimple c2
  let c4 := stripStereoComplex c3
  let c5 := stripTrailIndex c4
  let c6 := collapseWs c5
  let c7 := if pyIsUpper c6 && decide (3 < c6.length) then pyTitle c6 else c6
  pyStrip c7

/-- The final rejection gate of `clean_compound_name` (app.py lines
133-136): `if not cleaned or len(cleaned) < 3: return 'Unknown'`. -/
def clean_gate (c : List Char) : String :=
  if c.isEmpty || decide (c.length < 3) then "Unknown" else String.mk c

/-- Models `clean_compound_name` on an actual string (the `isinstance(name, str)`
branch of the source; non-string cells are handled by
`clean_compound_cell` below). -/
def clean_compound_name (name : String) : String :=
  clean_gate (cleanCore name.data)

/-- A pandas cell as the pipeline sees it: a raw string field, a coerced
number, or a missing value (NaN / None). -/
inductive Cell where
  | str (s : String)
  | num (q : Rat)
  | nan
deriving DecidableEq, Repr

def isStrCell : Cell → Bool
  | Cell.str _ => true
  | _ => false

/-- Models `clean_compound_name` as applied to a dataframe cell: the
`if not isinstance(name, str): return 'Unknown'` guard (app.py lines
105-106) sends every non-string cell to the sentinel. -/
def clean_compound_cell : Cell → String
  | Cell.str s => clean_compound_name s
  | _ => "Unknown"

/-- Whether a string contains a run of at least 3 consecutive ASCII letters
(the spec's "stricter variant" rejection test). -/
def alphaRunAux : Nat → List Char → Bool
  | cur, [] => decide (3 ≤ cur)
  | cur, c :: rest =>
    if 3 ≤ cur then true
    else if c.isAlpha then alphaRunAux (cur + 1) rest
    else alphaRunAux 0 rest

def hasAlphaRun3 (cs : List Char) : Bool := alphaRunAux 0 cs

/-! ### The report parser `parse_report_file` (app.py lines 138-232)

A report is a text blob; a parsed sample record set is a list of rows, each
row an association list from column name to `Cell` (cells keep the raw
comma-split field text, as in the source, until the numeric-coercion step).
Skip/exception paths of the source (`return None` and the enclosing
`try/except`) are the `none` result. -/

abbrev Row := List (String × Cell)

/-- Models `[line.strip() for line in file_content.splitlines()]`. -/
def linesOf (text : String) : List String :=
  (splitOnChar '\n' text.data).map (fun l => String.mk (pyStrip l))

/-- Models `line.split(',')`. -/
def rowParts (line : String) : List String :=
  (splitOnChar ',' line.data).map String.mk

def peakPat : List Char :=
  [quoteChar, 'P', 'e', 'a', 'k', quoteChar, ',', quoteChar, 'R', '.', 'T', '.', quoteChar]

def libPat : List Char :=
  [quoteChar, 'P', 'K', quoteChar, ',', quoteChar, 'R', 'T', quoteChar]

/-- Models `line.startswith('"Peak","R.T."')`. -/
def isPeakHeader (line : String) : Bool := leadsWith peakPat line.data

/-- Models `line.startswith('"PK","RT"')`. -/
def isLibHeader (line : String) : Bool := leadsWith libPat line.data

/-- The header-scanning loop (app.py lines 152-156): both indices are
repeatedly overwritten, so the last matching line wins. -/
def scanHeadersAux : Nat → (Option Nat × Option Nat) → List String → Option Nat × Option Nat
  | _, acc, [] => acc
  | i, acc, line :: rest =>
    scanHeadersAux (i + 1)
      (if isPeakHeader line then (some i, acc.2)
       else if isLibHeader line then (acc.1, some i)
       else acc) rest

def scanHeaders (lines : List String) : Option Nat × Option Nat :=
  scanHeadersAux 0 (none, none) lines

/-- Index of the last line satisfying `p`, counting from `i` (specification
function used to state what the scanning loop computes). -/
def lastIdxAux (p : String → Bool) : Nat → List String → Option Nat
  | _, [] => none
  | i, line :: rest =>
    match lastIdxAux p (i + 1) rest with
    | some j => some j
    | none => if p line then some i else none

def lastIdxOf (p : String → Bool) (lines : List String) : Option Nat :=
  lastIdxAux p 0 lines

/-- A line is a data row when it is nonblank and its first comma-split token,
stripped and with quotes removed, is all digits (app.py lines 168-171). -/
def isDataLine (line : String) : Bool :=
  !line.data.isEmpty &&
  (match splitOnChar ',' line.data with
   | [] => false
   | p0 :: _ => pyIsDigit (removeQuotes (pyStrip p0)))

/-- Column count of `pd.DataFrame(rows).iloc[:, :min(maxlen, len(headers))]`:
pandas gives the frame as many columns as the longest row. -/
def effCols (headers : List String) (rows : List (List String)) : List String :=
  headers.take (Nat.min ((rows.map List.length).foldl Nat.max 0) headers.length)

/-- Build the table rows: columns named by the truncated header, short rows
padded with missing values (pandas pads ragged rows with NaN). -/
def buildTable (headers : List String) (rows : List (List String)) : List Row :=
  let ncols := Nat.min ((rows.map List.length).foldl Nat.max 0) headers.length
  rows.map (fun r =>
    (List.range ncols).map (fun j =>
      (headers.getD j "", if j < r.length then Cell.str (r.getD j "") else Cell.nan)))

def hasCol (cols : List String) (k : String) : Bool :=
  cols.any (fun c => decide (c = k))

/-- Models `pd.to_numeric(cell.astype(str).str.replace(quote, ''), errors='coerce')`
on one cell; a padded missing value stays missing (its `astype(str)` image
`"nan"` coerces back to NaN). -/
def coerceCell (c : Cell) : Cell :=
  match c with
  | Cell.str s =>
    match parseNum (String.mk (removeQuotes s.data)) with
    | some q => Cell.num q
    | none => Cell.nan
  | c => c

def numericCols : List String := ["Peak", "R.T.", "Height", "Area"]

/-- The coercion loop over the columns `Peak`, `R.T.`, `Height`, `Area`
(app.py lines 200-202), cell by cell. -/
def coercePeakRow (r : Row) : Row :=
  r.map (fun p => if hasCol numericCols p.1 then (p.1, coerceCell p.2) else p)

def rowGet (r : Row) (k : String) : Option Cell :=
  match r with
  | [] => none
  | p :: t => if p.1 = k then some p.2 else rowGet t k

def rowNum (r : Row) (k : String) : Option Rat :=
  match rowGet r k with
  | some (Cell.num q) => some q
  | _ => none

/-- Models `df_peaks.dropna(subset=['Peak', 'R.T.'])`. -/
def dropnaPeakRT (rows : List Row) : List Row :=
  rows.filter (fun r => (rowNum r "Peak").isSome && (rowNum r "R.T.").isSome)

structure LibData where
  rows : List Row
  cols : List String
deriving DecidableEq, Repr

/-- Sections, tables, coercion and the dropna of the parser, i.e. everything
of `parse_report_file` before the join (app.py lines 144-204).  `none` is a
parse failure: no Peak List header, no valid peak data rows, or the
`KeyError` raised by `dropna` when `Peak`/`R.T.` is not among the columns.
The result carries the surviving peak rows, the peak column list and the
Library Search table when one exists. -/
def parseStage1 (text : String) : Option (List Row × List String × Option LibData) :=
  let lines := linesOf text
  match (scanHeaders lines).1 with
  | none => none
  | some pIdx =>
    let headerPeaks := (rowParts (lines.getD pIdx "")).map stripQuotesStr
    let endIdx := match (scanHeaders lines).2 with
      | some l => l
      | none => lines.length
    let dataPeaks := (((lines.take endIdx).drop (pIdx + 1)).filter isDataLine).map rowParts
    if dataPeaks.isEmpty then none
    else
      let pCols := effCols headerPeaks dataPeaks
      if hasCol pCols "Peak" && hasCol pCols "R.T." then
        let peakRows := dropnaPeakRT ((buildTable headerPeaks dataPeaks).map coercePeakRow)
        let lib : Option LibData := match (scanHeaders lines).2 with
          | none => none
          | some lIdx =>
            let headerLib := (rowParts (lines.getD lIdx "")).map stripQuotesStr
            let dataLib := ((lines.drop (lIdx + 1)).filter isDataLine).map rowParts
            if dataLib.isEmpty then none
            else some ⟨buildTable headerLib dataLib, effCols headerLib dataLib⟩
        some (peakRows, pCols, lib)
      else none

/-- Coerce the `PK` column and rename it to `Peak`
(`df_library['PK'] = pd.to_numeric(...)` plus `rename(columns={'PK': 'Peak'})`). -/
def renamePK (r : Row) : Row :=
  r.map (fun p => if p.1 = "PK" then ("Peak", coerceCell p.2) else p)

def renameColsPK (cols : List String) : List String :=
  cols.map (fun c => if c = "PK" then "Peak" else c)

/-- pandas join-key equality: NaN never matches. -/
def keyMatch (a b : Option Rat) : Bool :=
  match a, b with
  | some x, some y => decide (x = y)
  | _, _ => false

/-- Models `pd.merge(df_peaks, df_library, on='Peak', how='left')`: every left row,
in order, paired with each matching right row (right order); an unmatched
left row keeps all right columns as missing. -/
def mergeLeft (peakRows libRows : List Row) (rcols : List String) : List Row :=
  (peakRows.map (fun lr =>
    let ms := libRows.filter (fun rr => keyMatch (rowNum lr "Peak") (rowNum rr "Peak"))
    if ms.isEmpty then [lr ++ rcols.map (fun c => (c, Cell.nan))]
    else ms.map (fun rr => lr ++ rr.filter (fun p => !(decide (p.1 = "Peak")))))).flatten

def isNanCell : Cell → Bool
  | Cell.nan => true
  | _ => false

/-- Models `df_merged.loc[df_merged['Library/ID'].isna(), 'Library/ID'] = 'Unknown'`. -/
def fillLibRow (r : Row) : Row :=
  r.map (fun p =>
    if p.1 = "Library/ID" ∧ isNanCell p.2 = true then (p.1, Cell.str "Unknown") else p)

def rowHasKey (r : Row) (k : String) : Bool :=
  match r with
  | [] => false
  | p :: t => decide (p.1 = k) || rowHasKey t k

/-- Models `df[col] = value` for a scalar: overwrite the column if present,
append it otherwise. -/
def setCol (k : String) (v : Cell) (r : Row) : Row :=
  if rowHasKey r k then r.map (fun p => if p.1 = k then (p.1, v) else p)
  else r ++ [(k, v)]

/-- Models `parse_report_file(uploaded_file)` for a file with the given name and
decoded text (app.py lines 138-232). -/
def parse_report_file (name : String) (text : String) : Option (List Row) :=
  match parseStage1 text with
  | none => none
  | some (peakRows, pCols, libO) =>
    let merged : List Row × List String :=
      match libO with
      | some lib =>
        if hasCol lib.cols "PK" then
          let rcols := (renameColsPK lib.cols).filter (fun c => !(decide (c = "Peak")))
          (mergeLeft peakRows (lib.rows.map renamePK) rcols, pCols ++ rcols)
        else
          (peakRows.map (setCol "Library/ID" (Cell.str "Unknown")),
           if hasCol pCols "Library/ID" then pCols else pCols ++ ["Library/ID"])
      | none =>
        (peakRows.map (setCol "Library/ID" (Cell.str "Unknown")),
         if hasCol pCols "Library/ID" then pCols else pCols ++ ["Library/ID"])
    let filled :=
      if hasCol merged.2 "Library/ID" then merged.1.map fillLibRow
      else merged.1.map (setCol "Library/ID" (Cell.str "Unknown"))
    some (filled.map (setCol "Sample" (Cell.str (splitextBase name))))

/-! ### Batch assembly (app.py lines 291-328) -/

/-- Models `[parse_report_file(f) for f in files]` then keep the non-`None` results. -/
def valid_data_list (files : List (String × String)) : List (List Row) :=
  (files.map (fun f => parse_report_file f.1 f.2)).filterMap id

/-- Models `pd.concat(valid_data_list, ignore_index=True)`. -/
def combined_rows (files : List (String × String)) : List Row :=
  (valid_data_list files).flatten

/-- The batch outcome: `none` models the "no file could be processed" error
path (app.py lines 320-323), otherwise the combined corpus. -/
def batch_result (files : List (String × String)) : Option (List Row) :=
  if (valid_data_list files).isEmpty then none
  else some (combined_rows files)

/-- Models `combined_df['Compound']` for one row: normalize its `Library/ID` cell
(a missing column is pandas NaN and normalizes to the sentinel). -/
def compoundOf (r : Row) : String :=
  clean_compound_cell ((rowGet r "Library/ID").getD Cell.nan)

/-- Models `base_analysis_df = combined_df[combined_df['Compound'] != 'Unknown']`. -/
def base_analysis (rows : List Row) : List Row :=
  rows.filter (fun r => !(decide (compoundOf r = "Unknown")))

/-- The Analyze-button gate (app.py lines 291-297): more than 20 files is an
error and nothing is stored; otherwise the full list is accepted. -/
inductive BatchDecision where
  | rejected
  | accepted (files : List (String × String))
deriving DecidableEq, Repr

def analyze_decision (files : List (String × String)) : BatchDecision :=
  if 20 < files.length then BatchDecision.rejected else BatchDecision.accepted files

/-! ### Claim C2 -/

/-- C2 counterexample: on the spec's own test input the normalizer does not
return `"Bornanone"` — the leading numeric locant survives, because the
digit-stripping step runs before the stereochemistry-stripping step and the
pipeline is applied only once. -/
theorem c2_counterexample :
    clean_compound_name "\"(+)-2-Bornanone\"" ≠ "Bornanone" := by decide

/-- C2 (amended): normalizing `'"(+)-2-Bornanone"'` strips the enclosing
quotes and the stereochemistry descriptor `(+)-` but keeps the numeric
locant, giving `"2-Bornanone"`. -/
theorem c2_amended_bornanone :
    clean_compound_name "\"(+)-2-Bornanone\"" = "2-Bornanone" := by decide

/-! ### Claim C1 (counterexample; the amended theorem is below, after the
fixed-point machinery) -/

/-- C1 counterexample: `normalize` is not idempotent.  At
`"(+)-2-Bornanone"` a first pass gives `"2-Bornanone"` and a second pass
strips the now-leading locant, giving `"Bornanone"`. -/
theorem c1_counterexample :
    clean_compound_name (clean_compound_name "(+)-2-Bornanone") ≠
      clean_compound_name "(+)-2-Bornanone" := by decide

/-! ### Claim C3 -/

/-- C3 counterexample: the stricter "no run of ≥ 3 consecutive alphabetic
characters" rejection is not implemented: `"a1b2"` cleans to itself, has no
such run, yet is not sent to the sentinel. -/
theorem c3_counterexample :
    hasAlphaRun3 (cleanCore ("a1b2").data) = false ∧
      clean_compound_name "a1b2" ≠ "Unknown" := by decide

/-- C3 (amended): the normalizer returns the sentinel whenever the cleaned
result is empty or shorter than 3 characters (the only rejection test in the
code); in particular `normalize("12")` is the sentinel. -/
theorem c3_amended_short_rejected :
    (∀ s : String, (cleanCore s.data).length < 3 → clean_compound_name s = "Unknown") ∧
      clean_compound_name "12" = "Unknown" := by
  refine ⟨fun s h => ?_, by decide⟩
  simp [clean_compound_name, clean_gate, h]

/-- C3 witness: the amended theorem applied at the concrete input `"12"`. -/
theorem c3_witness :
    (cleanCore ("12").data).length < 3 ∧ clean_compound_name "12" = "Unknown" :=
  ⟨by decide, c3_amended_short_rejected.1 "12" (by decide)⟩

/-! ### Claim C4 -/

def c4text : String :=
  "\"Peak\",\"R.T.\",\"Height\",\"Area\"\n3,1.5,100,1000\n5,2.5,200,2000\n\"PK\",\"RT\",\"Library/ID\"\n3,1.5,Caffeine"

/-- C4: parsing a report whose Peak List has peaks 3 and 5 and whose Library
Search matches only peak 3 yields exactly two rows: peak 3 carries the
matched identifier, peak 5 carries the sentinel `"Unknown"`, and both retain
their own `R.T.`/`Height`/`Area` values from the Peak List. -/
theorem c4_left_outer_join :
    (parse_report_file "sampleA.txt" c4text).map List.length = some 2 ∧
    (let rows := (parse_report_file "sampleA.txt" c4text).getD []
     let r3 := rows.getD 0 []
     let r5 := rows.getD 1 []
     rowNum r3 "Peak" = some 3 ∧ rowGet r3 "Library/ID" = some (Cell.str "Caffeine") ∧
     rowNum r3 "R.T." = some (mkRat 3 2) ∧ rowNum r3 "Height" = some 100 ∧
     rowNum r3 "Area" = some 1000 ∧
     rowNum r5 "Peak" = some 5 ∧ rowGet r5 "Library/ID" = some (Cell.str "Unknown") ∧
     rowNum r5 "R.T." = some (mkRat 5 2) ∧ rowNum r5 "Height" = some 200 ∧
     rowNum r5 "Area" = some 2000) := by decide

/-! ### Claim C5 (counterexample; amended theorem below) -/

def c5text : String :=
  "\"Peak\",\"R.T.\"\n1,1.0\n\"PK\",\"RT\",\"Library/ID\"\n1,1.0,Foo\n1,1.0,Bar"

/-- C5 counterexample: with two Library Search rows for the same peak key,
the left outer join duplicates the peak row — one surviving Peak Record
produces two rows in the Sample Record Set, so a surviving Peak Record does
not always appear exactly once. -/
theorem c5_counterexample :
    (parseStage1 c5text).map (fun s => s.1.length) = some 1 ∧
    (parse_report_file "d.txt" c5text).map List.length = some 2 ∧
    (((parse_report_file "d.txt" c5text).getD []).filter
      (fun r => keyMatch (rowNum r "Peak") (some 1))).length = 2 := by decide

/-! ### Claim C8 -/

/-- C8: a batch of more than 20 files is rejected outright — the decision is
`rejected` and an accepted batch is always the full, untruncated file
list. -/
theorem c8_batch_limit :
    ∀ files : List (String × String),
      (20 < files.length → analyze_decision files = BatchDecision.rejected) ∧
      (files.length ≤ 20 → analyze_decision files = BatchDecision.accepted files) := by
  intro files
  constructor
  · intro h
    simp [analyze_decision, h]
  · intro h
    simp [analyze_decision, Nat.not_lt.mpr h]

/-- C8 witness: a concrete batch of 21 files is rejected. -/
theorem c8_witness :
    20 < (List.replicate 21 (("f", "x") : String × String)).length ∧
      analyze_decision (List.replicate 21 (("f", "x") : String × String)) =
        BatchDecision.rejected :=
  ⟨by decide, (c8_batch_limit _).1 (by decide)⟩

/-! ### Claim C10 -/

/-- C10: the normalizer is total on arbitrary cell values — every
non-string cell (missing value, NaN, numeric) yields the sentinel
`"Unknown"` instead of failing. -/
theorem c10_nonstring_is_unknown :
    ∀ c : Cell, isStrCell c = false → clean_compound_cell c = "Unknown" := by
  intro c h
  cases c with
  | str s => simp [isStrCell] at h
  | num q => rfl
  | nan => rfl

/-- C10 witness: the theorem applied at the missing-value cell. -/
theorem c10_witness :
    isStrCell Cell.nan = false ∧ clean_compound_cell Cell.nan = "Unknown" :=
  ⟨rfl, c10_nonstring_is_unknown Cell.nan rfl⟩

/-! ### Claim C9: the header scan keeps the last matching line -/

def optOr (a b : Option Nat) : Option Nat :=
  match a with
  | some x => some x
  | none => b

/-- A line cannot start with both header token sequences: the third
characters of the two patterns differ. -/
theorem peak_not_lib (s : String) (h : isPeakHeader s = true) : isLibHeader s = false := by
  unfold isPeakHeader peakPat at h
  unfold isLibHeader libPat
  cases hd : s.data with
  | nil => rw [hd] at h; simp [leadsWith] at h
  | cons a t =>
    rw [hd] at h
    cases t with
    | nil => simp [leadsWith] at h
    | cons b t2 =>
      cases t2 with
      | nil => simp [leadsWith] at h
      | cons c t3 =>
        simp only [leadsWith, Bool.and_eq_true, beq_iff_eq] at h
        obtain ⟨h1, h2, h3, -⟩ := h
        subst h1; subst h2; subst h3
        simp [leadsWith]

theorem scanHeadersAux_spec (ls : List String) :
    ∀ (i : Nat) (acc : Option Nat × Option Nat),
      scanHeadersAux i acc ls =
        (optOr (lastIdxAux isPeakHeader i ls) acc.1,
         optOr (lastIdxAux isLibHeader i ls) acc.2) := by
  induction ls with
  | nil =>
    intro i acc
    simp [scanHeadersAux, lastIdxAux, optOr]
  | cons line rest ih =>
    intro i acc
    rw [scanHeadersAux, ih]
    cases hpk : isPeakHeader line with
    | true =>
      have hlib : isLibHeader line = false := peak_not_lib line hpk
      simp only [lastIdxAux, hpk, hlib, if_true, if_false]
      cases lastIdxAux isPeakHeader (i + 1) rest <;>
        cases lastIdxAux isLibHeader (i + 1) rest <;> simp [optOr]
    | false =>
      cases hlib : isLibHeader line with
      | true =>
        simp only [lastIdxAux, hpk, hlib, if_true, if_false]
        cases lastIdxAux isPeakHeader (i + 1) rest <;>
          cases lastIdxAux isLibHeader (i + 1) rest <;> simp [optOr]
      | false =>
        simp only [lastIdxAux, hpk, hlib, if_true, if_false]
        cases lastIdxAux isPeakHeader (i + 1) rest <;>
          cases lastIdxAux isLibHeader (i + 1) rest <;> simp [optOr]

def c9text : String :=
  "\"PK\",\"RT\",\"Library/ID\"\n1,1,Foo\n\"Peak\",\"R.T.\",\"Height\"\n1,1,5"

/-- C9: the header scan returns, for each header kind, the index of the last
matching line; consequently a report whose only Library Search header
precedes its last Peak List header collects no peak data rows and the whole
file is a parse failure. -/
theorem c9_last_header_wins :
    (∀ lines : List String,
      scanHeaders lines = (lastIdxOf isPeakHeader lines, lastIdxOf isLibHeader lines)) ∧
    parse_report_file "x.txt" c9text = none := by
  constructor
  · intro lines
    unfold scanHeaders lastIdxOf
    rw [scanHeadersAux_spec]
    cases lastIdxAux isPeakHeader 0 lines <;>
      cases lastIdxAux isLibHeader 0 lines <;> simp [optOr]
  · decide

/-! ### Row-lookup lemmas -/

def optOrCell (a b : Option Cell) : Option Cell :=
  match a with
  | some c => some c
  | none => b

theorem rowGet_none_of_not_has (r : Row) (k : String) (h : rowHasKey r k = false) :
    rowGet r k = none := by
  induction r with
  | nil => rfl
  | cons p t ih =>
    rw [rowHasKey, Bool.or_eq_false_iff] at h
    rw [rowGet, if_neg (of_decide_eq_false h.1), ih h.2]

theorem rowGet_append (r l : Row) (k : String) :
    rowGet (r ++ l) k = optOrCell (rowGet r k) (rowGet l k) := by
  induction r with
  | nil => simp [rowGet, optOrCell]
  | cons p t ih =>
    by_cases h : p.1 = k
    · simp [rowGet, h, optOrCell]
    · simp [rowGet, h, ih]

theorem rowGet_overwrite_self (k : String) (v : Cell) (r : Row) (h : rowHasKey r k = true) :
    rowGet (r.map (fun p => if p.1 = k then (p.1, v) else p)) k = some v := by
  induction r with
  | nil => simp [rowHasKey] at h
  | cons p t ih =>
    by_cases hp : p.1 = k
    · simp [rowGet, hp]
    · have ht : rowHasKey t k = true := by
        rw [rowHasKey, Bool.or_eq_true] at h
        rcases h with h | h
        · exact absurd (of_decide_eq_true h) hp
        · exact h
      simp [rowGet, hp, ih ht]

theorem rowGet_setCol_self (k : String) (v : Cell) (r : Row) :
    rowGet (setCol k v r) k = some v := by
  unfold setCol
  cases h : rowHasKey r k with
  | true =>
    simp only [if_true]
    exact rowGet_overwrite_self k v r h
  | false =>
    simp only [Bool.false_eq_true, if_false]
    rw [rowGet_append, rowGet_none_of_not_has r k h]
    simp [rowGet, optOrCell]

theorem rowGet_overwrite_ne (k k' : String) (h : k' ≠ k) (v : Cell) (r : Row) :
    rowGet (r.map (fun p => if p.1 = k then (p.1, v) else p)) k' = rowGet r k' := by
  induction r with
  | nil => rfl
  | cons p t ih =>
    by_cases hp : p.1 = k
    · have hkk : ¬(k = k') := fun hh => h hh.symm
      simp [rowGet, hp, hkk, ih]
    · by_cases hp' : p.1 = k'
      · simp [rowGet, hp, hp', h]
      · simp [rowGet, hp, hp', ih]

theorem rowGet_setCol_ne (k k' : String) (h : k' ≠ k) (v : Cell) (r : Row) :
    rowGet (setCol k v r) k' = rowGet r k' := by
  unfold setCol
  cases hk : rowHasKey r k with
  | true =>
    simp only [if_true]
    exact rowGet_overwrite_ne k k' h v r
  | false =>
    simp only [Bool.false_eq_true, if_false]
    rw [rowGet_append]
    have hkk : ¬(k = k') := fun hh => h hh.symm
    have hsingle : rowGet [(k, v)] k' = none := by
      simp [rowGet, hkk]
    rw [hsingle]
    cases rowGet r k' <;> simp [optOrCell]

theorem rowGet_fillLibRow (r : Row)
    (h : rowGet r "Library/ID" = some (Cell.str "Unknown")) :
    rowGet (fillLibRow r) "Library/ID" = some (Cell.str "Unknown") := by
  induction r with
  | nil => simp [rowGet] at h
  | cons p t ih =>
    by_cases hp : p.1 = "Library/ID"
    · rw [rowGet, if_pos hp] at h
      have hv : p.2 = Cell.str "Unknown" := Option.some.inj h
      simp [fillLibRow, rowGet, hp, hv, isNanCell]
    · rw [rowGet, if_neg hp] at h
      have := ih h
      simp only [fillLibRow] at this ⊢
      simp [rowGet, hp, this]

/-! ### Claim C6 -/

theorem stage1_lib_none (text : String) (peakRows : List Row) (pCols : List String)
    (libO : Option LibData) (hs : (scanHeaders (linesOf text)).2 = none)
    (hst : parseStage1 text = some (peakRows, pCols, libO)) : libO = none := by
  simp only [parseStage1] at hst
  rw [hs] at hst
  cases hp : (scanHeaders (linesOf text)).1 with
  | none => rw [hp] at hst; exact Option.noConfusion hst
  | some pIdx =>
    rw [hp] at hst
    simp only [] at hst
    split at hst
    · exact Option.noConfusion hst
    · split at hst
      · have h3 :=
          congrArg (fun t : List Row × List String × Option LibData => t.2.2)
            (Option.some.inj hst)
        exact h3.symm
      · exact Option.noConfusion hst

/-- C6: a report with a Peak List but no Library Search header parses to a
record set in which every row's `Library/ID` field is the sentinel
`"Unknown"`. -/
theorem c6_no_lib_sentinel :
    ∀ (name text : String) (rows : List Row),
      (scanHeaders (linesOf text)).2 = none →
      parse_report_file name text = some rows →
      ∀ r ∈ rows, rowGet r "Library/ID" = some (Cell.str "Unknown") := by
  intro name text rows hs hp r hr
  cases hst : parseStage1 text with
  | none =>
    rw [parse_report_file, hst] at hp
    exact Option.noConfusion hp
  | some trip =>
    obtain ⟨peakRows, pCols, libO⟩ := trip
    have hln : libO = none := stage1_lib_none text peakRows pCols libO hs hst
    subst hln
    rw [parse_report_file, hst] at hp
    simp only [] at hp
    have hcol :
        hasCol (if hasCol pCols "Library/ID" = true then pCols
                else pCols ++ ["Library/ID"]) "Library/ID" = true := by
      cases hc : hasCol pCols "Library/ID" with
      | true => simp [hc]
      | false => simp [hc, hasCol, List.any_append]
    rw [hcol] at hp
    simp only [if_true] at hp
    have hrows := Option.some.inj hp
    subst hrows
    rcases List.mem_map.mp hr with ⟨r2, hr2, rfl⟩
    rcases List.mem_map.mp hr2 with ⟨r1, hr1, rfl⟩
    rcases List.mem_map.mp hr1 with ⟨pr, hpr, rfl⟩
    rw [rowGet_setCol_ne "Sample" "Library/ID" (by decide)]
    exact rowGet_fillLibRow _ (rowGet_setCol_self "Library/ID" (Cell.str "Unknown") pr)

def c6text : String := "\"Peak\",\"R.T.\"\n1,1.0\n2,2.0"

def c6rows : List Row :=
  [[("Peak", Cell.num 1), ("R.T.", Cell.num 1),
    ("Library/ID", Cell.str "Unknown"), ("Sample", Cell.str "c6sample")],
   [("Peak", Cell.num 2), ("R.T.", Cell.num 2),
    ("Library/ID", Cell.str "Unknown"), ("Sample", Cell.str "c6sample")]]

/-- C6 witness: the theorem applied to a concrete two-peak report with no
Library Search section. -/
theorem c6_witness :
    (scanHeaders (linesOf c6text)).2 = none ∧
    parse_report_file "c6sample.txt" c6text = some c6rows ∧
    ∀ r ∈ c6rows, rowGet r "Library/ID" = some (Cell.str "Unknown") :=
  ⟨by decide, by decide,
   c6_no_lib_sentinel "c6sample.txt" c6text c6rows (by decide) (by decide)⟩

/-! ### Claim C7 -/

/-- C7: a file whose parse fails (no Peak List header, no valid data rows,
or a caught mid-parse error — all are the `none` result) is simply absent:
removing it changes neither the list of per-file record sets nor the batch
outcome, so a batch with at least one parsed file proceeds with rows only
from the files that parsed. -/
theorem c7_per_file_failure :
    ∀ (xs ys : List (String × String)) (bad : String × String),
      parse_report_file bad.1 bad.2 = none →
      valid_data_list (xs ++ bad :: ys) = valid_data_list (xs ++ ys) ∧
      batch_result (xs ++ bad :: ys) = batch_result (xs ++ ys) := by
  intro xs ys bad h
  have hv : valid_data_list (xs ++ bad :: ys) = valid_data_list (xs ++ ys) := by
    unfold valid_data_list
    rw [List.map_append, List.map_append, List.map_cons,
      List.filterMap_append, List.filterMap_append, h]
    simp
  refine ⟨hv, ?_⟩
  unfold batch_result combined_rows
  rw [hv]

def c7good : String := "\"Peak\",\"R.T.\"\n7,1.0"

/-- C7 witness: one good file plus one headerless file; the bad file is
absent and the batch proceeds. -/
theorem c7_witness :
    parse_report_file "bad.txt" "no header here" = none ∧
    (valid_data_list ([("g.txt", c7good)] ++ ("bad.txt", "no header here") :: []) =
       valid_data_list ([("g.txt", c7good)] ++ []) ∧
     batch_result ([("g.txt", c7good)] ++ ("bad.txt", "no header here") :: []) =
       batch_result ([("g.txt", c7good)] ++ [])) :=
  ⟨by decide,
   c7_per_file_failure [("g.txt", c7good)] [] ("bad.txt", "no header here") (by decide)⟩

/-! ### Claim C5 (amended theorem) -/

theorem mergeLeft_length (libRows : List Row) (rcols : List String) :
    ∀ peakRows : List Row,
      (∀ lr ∈ peakRows,
        (libRows.filter (fun rr => keyMatch (rowNum lr "Peak") (rowNum rr "Peak"))).length ≤ 1) →
      (mergeLeft peakRows libRows rcols).length = peakRows.length := by
  intro peakRows
  induction peakRows with
  | nil => intro h; rfl
  | cons lr rest ih =>
    intro h
    have hlr := h lr (List.mem_cons_self lr rest)
    have hrest := fun x hx => h x (List.mem_cons_of_mem lr hx)
    simp only [mergeLeft] at ih ⊢
    rw [List.map_cons, List.flatten_cons, List.length_append, ih hrest, List.length_cons]
    have hstep :
        (if (libRows.filter (fun rr => keyMatch (rowNum lr "Peak") (rowNum rr "Peak"))).isEmpty = true
         then [lr ++ rcols.map (fun c => (c, Cell.nan))]
         else (libRows.filter (fun rr => keyMatch (rowNum lr "Peak") (rowNum rr "Peak"))).map
           (fun rr => lr ++ rr.filter (fun p => !decide (p.1 = "Peak")))).length = 1 := by
      by_cases hms :
          (libRows.filter (fun rr => keyMatch (rowNum lr "Peak") (rowNum rr "Peak"))).isEmpty = true
      · simp [hms]
      · rw [if_neg hms, List.length_map]
        have h0 :
            ¬((libRows.filter
                (fun rr => keyMatch (rowNum lr "Peak") (rowNum rr "Peak"))).length = 0) :=
          fun h0 => hms (List.isEmpty_iff_length_eq_zero.mpr h0)
        omega
    rw [hstep]
    omega

/-- C5 (amended): provided each surviving peak matches at most one Library
Search row (e.g. unique peak keys), every surviving Peak Record appears
exactly once after the left outer join, so the record-set row count equals
the surviving-peak count; the assembled corpus row count is the sum of the
per-file record-set counts, and the identified subset is never larger. -/
theorem c5_amended_unique_join :
    (∀ (name text : String) (peakRows : List Row) (pCols : List String) (lib : LibData),
      parseStage1 text = some (peakRows, pCols, some lib) →
      hasCol lib.cols "PK" = true →
      (∀ lr ∈ peakRows,
        ((lib.rows.map renamePK).filter
          (fun rr => keyMatch (rowNum lr "Peak") (rowNum rr "Peak"))).length ≤ 1) →
      ∃ rows, parse_report_file name text = some rows ∧ rows.length = peakRows.length) ∧
    (∀ files : List (String × String),
      (combined_rows files).length = ((valid_data_list files).map List.length).sum ∧
      (base_analysis (combined_rows files)).length ≤ (combined_rows files).length) := by
  constructor
  · intro name text peakRows pCols lib hst hpk huniq
    rw [parse_report_file, hst]
    simp only [hpk, if_true]
    refine ⟨_, rfl, ?_⟩
    rw [List.length_map]
    split
    · rw [List.length_map, mergeLeft_length _ _ peakRows huniq]
    · rw [List.length_map, mergeLeft_length _ _ peakRows huniq]
  · intro files
    exact ⟨List.length_flatten _, List.length_filter_le _ _⟩

def c5wtext : String := "\"Peak\",\"R.T.\"\n1,2\n\"PK\",\"RT\",\"Library/ID\"\n1,2,Foo"

def c5wPeakRows : List Row := [[("Peak", Cell.num 1), ("R.T.", Cell.num 2)]]

def c5wLib : LibData :=
  ⟨[[("PK", Cell.str "1"), ("RT", Cell.str "2"), ("Library/ID", Cell.str "Foo")]],
   ["PK", "RT", "Library/ID"]⟩

/-- C5 witness: the amended theorem applied to a one-peak, one-match
report. -/
theorem c5_witness :
    (∀ lr ∈ c5wPeakRows,
      ((c5wLib.rows.map renamePK).filter
        (fun rr => keyMatch (rowNum lr "Peak") (rowNum rr "Peak"))).length ≤ 1) ∧
    (∃ rows, parse_report_file "w.txt" c5wtext = some rows ∧
      rows.length = c5wPeakRows.length) :=
  ⟨by decide,
   c5_amended_unique_join.1 "w.txt" c5wtext c5wPeakRows ["Peak", "R.T."] c5wLib
     (by decide) (by decide) (by decide)⟩

/-! ### Claim C1 (amended theorem): conditional idempotence

`clean_compound_name` is not idempotent in general (see
`c1_counterexample`); it is idempotent at every input whose normalized value
is in *clean form*: no edge whitespace/quote characters, no leading digit,
no leading parenthesis, no trailing parenthesis, whitespace already
collapsed, and not subject to the all-caps repair.  Every step of a second
cleaning pass is then the identity. -/

def firstOk (c : Char) : Bool :=
  !isSpaceChar c && !(c == quoteChar) && !(c == apostChar) && !c.isDigit && !(c == openParen)

def lastOk (c : Char) : Bool :=
  !isSpaceChar c && !(c == quoteChar) && !(c == apostChar) && !(c == closeParen)

def goodWsAux : Bool → List Char → Bool
  | _, [] => true
  | prevWs, c :: rest =>
    if isSpaceChar c then !prevWs && (c == ' ') && goodWsAux true rest
    else goodWsAux false rest

def goodWs (cs : List Char) : Bool := goodWsAux false cs

/-- A string in clean canonical form: each cleaning step leaves it
unchanged. -/
def isCleanForm (cs : List Char) : Bool :=
  !cs.isEmpty && firstOk (cs.headD 'x') && lastOk (cs.reverse.headD 'x') &&
  goodWs cs && !(pyIsUpper cs && decide (3 < cs.length))

theorem dropWhile_id_of_head (p : Char → Bool) (cs : List Char)
    (h : ∀ c, cs.head? = some c → p c = false) : cs.dropWhile p = cs := by
  cases cs with
  | nil => rfl
  | cons a l =>
    rw [List.dropWhile_cons, h a rfl]
    simp

theorem stripWhile_id (p : Char → Bool) (cs : List Char)
    (h1 : ∀ c, cs.head? = some c → p c = false)
    (h2 : ∀ c, cs.reverse.head? = some c → p c = false) :
    stripWhile p cs = cs := by
  unfold stripWhile
  rw [dropWhile_id_of_head p cs h1, dropWhile_id_of_head p cs.reverse h2, List.reverse_reverse]

theorem stripNumLead_id (cs : List Char)
    (h : ∀ c, cs.head? = some c → c.isDigit = false) : stripNumLead cs = cs := by
  cases cs with
  | nil => rfl
  | cons a l => simp [stripNumLead, List.takeWhile_cons, h a rfl]

theorem stripStereoSimple_id (cs : List Char)
    (h : ∀ c, cs.head? = some c → (c == openParen) = false) :
    stripStereoSimple cs = cs := by
  cases cs with
  | nil => rfl
  | cons a l => simp [stripStereoSimple, h a rfl]

theorem stripStereoComplex_id (cs : List Char)
    (h : ∀ c, cs.head? = some c → (c == openParen) = false) :
    stripStereoComplex cs = cs := by
  cases cs with
  | nil => rfl
  | cons a l => simp [stripStereoComplex, h a rfl]

theorem stripTrailIndex_id (cs : List Char)
    (h2 : ∀ c, cs.reverse.head? = some c →
      isSpaceChar c = false ∧ (c == closeParen) = false) :
    stripTrailIndex cs = cs := by
  have hdrop : cs.reverse.dropWhile isSpaceChar = cs.reverse :=
    dropWhile_id_of_head _ _ (fun c hc => (h2 c hc).1)
  unfold stripTrailIndex
  rw [hdrop]
  cases hr : cs.reverse with
  | nil => rfl
  | cons c r2 =>
    have hc := (h2 c (by rw [hr]; rfl)).2
    simp [hc]

theorem collapseWsAux_id :
    ∀ (cs : List Char) (b : Bool), goodWsAux b cs = true → collapseWsAux b cs = cs := by
  intro cs
  induction cs with
  | nil => intro b _; rfl
  | cons c rest ih =>
    intro b h
    cases hc : isSpaceChar c with
    | true =>
      simp only [goodWsAux, hc, if_true, Bool.and_eq_true, Bool.not_eq_true'] at h
      obtain ⟨⟨hb, hsp⟩, hg⟩ := h
      have hc' : c = ' ' := by simpa using hsp
      subst hb
      subst hc'
      exact congrArg (fun t => ' ' :: t) (ih true hg)
    | false =>
      simp only [goodWsAux, hc, Bool.false_eq_true, if_false] at h
      simp [collapseWsAux, hc, ih false h]

theorem cleanCore_id_of_cleanForm (cs : List Char) (h : isCleanForm cs = true) :
    cleanCore cs = cs := by
  cases cs with
  | nil => simp [isCleanForm] at h
  | cons a l =>
    simp only [isCleanForm, Bool.and_eq_true] at h
    obtain ⟨⟨⟨⟨-, hfirst⟩, hlast⟩, hgw⟩, hguardN⟩ := h
    have hguard : (pyIsUpper (a :: l) && decide (3 < (a :: l).length)) = false := by
      cases hbu : (pyIsUpper (a :: l) && decide (3 < (a :: l).length)) with
      | false => rfl
      | true => rw [hbu] at hguardN; exact absurd hguardN (by simp)
    simp only [List.headD] at hfirst
    simp only [firstOk, Bool.and_eq_true, Bool.not_eq_true'] at hfirst
    obtain ⟨⟨⟨⟨hsp, hqa⟩, haa⟩, hdig⟩, hpar⟩ := hfirst
    obtain ⟨b, r2, hr⟩ : ∃ b r2, (a :: l).reverse = b :: r2 := by
      cases hrr : (a :: l).reverse with
      | nil => exact absurd (List.reverse_eq_nil_iff.mp hrr) (by simp)
      | cons b r2 => exact ⟨b, r2, rfl⟩
    rw [hr] at hlast
    simp only [List.headD] at hlast
    simp only [lastOk, Bool.and_eq_true, Bool.not_eq_true'] at hlast
    obtain ⟨⟨⟨hspb, hqb⟩, hab⟩, hpb⟩ := hlast
    have hw1 : ∀ (p : Char → Bool), p a = false →
        ∀ c, (a :: l).head? = some c → p c = false := by
      intro p hp c hc
      obtain rfl : a = c := Option.some.inj hc
      exact hp
    have hw2 : ∀ (p : Char → Bool), p b = false →
        ∀ c, (a :: l).reverse.head? = some c → p c = false := by
      intro p hp c hc
      rw [hr] at hc
      obtain rfl : b = c := Option.some.inj hc
      exact hp
    have hpy : pyStrip (a :: l) = a :: l :=
      stripWhile_id _ _ (hw1 _ hsp) (hw2 _ hspb)
    have hq : stripChar quoteChar (a :: l) = a :: l :=
      stripWhile_id _ _ (hw1 _ hqa) (hw2 _ hqb)
    have hap : stripChar apostChar (a :: l) = a :: l :=
      stripWhile_id _ _ (hw1 _ haa) (hw2 _ hab)
    have hnum : stripNumLead (a :: l) = a :: l :=
      stripNumLead_id _ (hw1 _ hdig)
    have hs1 : stripStereoSimple (a :: l) = a :: l :=
      stripStereoSimple_id _ (hw1 _ hpar)
    have hs2 : stripStereoComplex (a :: l) = a :: l :=
      stripStereoComplex_id _ (hw1 _ hpar)
    have htr : stripTrailIndex (a :: l) = a :: l :=
      stripTrailIndex_id _ (fun c hc => by
        rw [hr] at hc
        obtain rfl : b = c := Option.some.inj hc
        exact ⟨hspb, hpb⟩)
    have hcw : collapseWs (a :: l) = a :: l := collapseWsAux_id (a :: l) false hgw
    simp only [cleanCore]
    rw [hpy, hq, hap, hnum, hs1, hs2, htr, hcw, hguard]
    simp [hpy]

theorem clean_gate_len (c : List Char) : 3 ≤ (clean_gate c).data.length := by
  simp only [clean_gate]
  split
  · decide
  · next hcond =>
    simp only [Bool.or_eq_true, not_or] at hcond
    have h3 : ¬(c.length < 3) := fun hh => hcond.2 (decide_eq_true hh)
    show 3 ≤ c.length
    omega

theorem clean_len_ge3 (x : String) : 3 ≤ (clean_compound_name x).data.length :=
  clean_gate_len (cleanCore x.data)

theorem clean_gate_fixed (y : String) (h3 : 3 ≤ y.data.length) : clean_gate y.data = y := by
  have hne : y.data.isEmpty = false := by
    cases hd : y.data with
    | nil => rw [hd] at h3; simp at h3
    | cons a t => rfl
  have hlt : decide (y.data.length < 3) = false := decide_eq_false (by omega)
  simp only [clean_gate, hne, hlt]
  rfl

/-- C1 (amended): `normalize` is idempotent at every input whose normalized
value is in clean form (no enclosing quote characters, no leading digit or
parenthesis, no trailing parenthesis, single internal spaces, not all-caps);
this covers the sentinel and ordinary canonical names, but not inputs such
as `"(+)-2-Bornanone"`, whose normalization still begins with a numeric
locant. -/
theorem c1_amended_idempotent_on_clean_form :
    ∀ x : String, isCleanForm (clean_compound_name x).data = true →
      clean_compound_name (clean_compound_name x) = clean_compound_name x := by
  intro x h
  have hid := cleanCore_id_of_cleanForm _ h
  have hstep : clean_compound_name (clean_compound_name x) =
      clean_gate (cleanCore (clean_compound_name x).data) := rfl
  rw [hstep, hid]
  exact clean_gate_fixed _ (clean_len_ge3 x)

/-- C1 witness: the amended theorem applied at `"1-Butanol"`, whose
normalization `"Butanol"` is in clean form. -/
theorem c1_witness :
    isCleanForm (clean_compound_name "1-Butanol").data = true ∧
      clean_compound_name (clean_compound_name "1-Butanol") =
        clean_compound_name "1-Butanol" :=
  ⟨by decide, c1_amended_idempotent_on_clean_form "1-Butanol" (by decide)⟩

end GCMS
